import Mathlib

/-!
# genkit-milvus-example: the retrieval-augmented flow of `main.go`

A shallow embedding of `src/main.go`.  The program is orchestration code around
three external systems (the Milvus vector store, the embedding provider and the
text-generation model).  Every call that leaves the program is a field of a
record of collaborators acting on an abstract world state `σ`; the embedded
program threads that state explicitly and records the calls it issues, in
order, so that "which call was made, how often and with what argument" is a
property of the returned value.

* Go `string` is `String`; `strings.Builder` is the string built so far.
* Go `error` is `GoError`, observed through its `Error()` message, which is
  what the `%v` verb of `fmt.Errorf` prints.
* A Go `(value, error)` result is `Except GoError value`; a lone `error` result
  is `Option GoError` (`none` is `nil`).
* `log.Fatalf` ends the process: `Outcome.fatal` with the formatted message.
* An index expression out of range is a run-time panic: `FlowResult.panicked`.
* Pointers built by the program or handed back by the collaborators
  (`*ai.Document`, `*ai.Part`) are the values they point to.
-/

namespace GenkitMilvus

/-! ## Go errors -/

/-- A Go `error`, observed through the string its `Error()` method returns. -/
structure GoError where
  msg : String
  deriving DecidableEq, Repr

/-- The call `fmt.Errorf(format ++ "%v", err)` for a format that ends in the
single verb `%v`: a fresh error whose message is the literal text followed by
`err.Error()`. -/
def Errorf (format : String) (err : GoError) : GoError :=
  ⟨format ++ err.msg⟩

/-! ## Documents (`genkit/go/ai`) -/

/-- A value of Go type `any` as it occurs in document metadata. -/
inductive AnyValue where
  | int64 (v : Int)
  | str (s : String)
  deriving DecidableEq, Repr

/-- The type `ai.Part`, restricted to the field the program reads. -/
structure Part where
  Text : String
  deriving DecidableEq, Repr

/-- The type `ai.Document`: content parts and a metadata map (a `nil` map is the
empty association list). -/
structure Document where
  Content : List Part
  Metadata : List (String × AnyValue)
  deriving DecidableEq, Repr

/-- The constructor `ai.DocumentFromText(text, metadata)`: one text part. -/
def DocumentFromText (text : String) (metadata : List (String × AnyValue)) : Document :=
  { Content := [⟨text⟩], Metadata := metadata }

/-- The type `ai.RetrieverResponse`. -/
structure RetrieverResponse where
  Documents : List Document
  deriving DecidableEq, Repr

/-- The type `milvus.RetrieverOptions`, as passed with `ai.WithConfig`. -/
structure RetrieverOptions where
  Limit : Int
  deriving DecidableEq, Repr

/-- The type `ai.ModelResponse`, observed through its `Text()` method. -/
structure ModelResponse where
  Text : String
  deriving DecidableEq, Repr

/-- The struct `promptInput` of `main.go`. -/
structure promptInput where
  Question : String
  Context : String
  deriving DecidableEq, Repr

/-! ## The flow closure (`main.go`, lines 131-171) -/

/-- The constants `id1 .. id4` of `main`. -/
def id1 : Int := 1
def id2 : Int := 2
def id3 : Int := 3
def id4 : Int := 4

/-- The slice `indexDocs` built at the start of every flow run. -/
def indexDocs : List Document :=
  [ DocumentFromText "iPhone 17 $1000" [("id", .int64 id1)],
    DocumentFromText "Samsung s25 $900" [("id", .int64 id2)],
    DocumentFromText "Pixel 9 $800" [("id", .int64 id3)],
    DocumentFromText "Xiaomi 15 $300" [("id", .int64 id4)] ]

/-- The byte written by `sb.WriteByte` in the loop: the line feed. -/
def newline : Char := Char.ofNat 10

/-- The loop `for _, d := range retrieveDocs.Documents` over a builder holding
`sb`: each iteration writes `d.Content[0].Text` and a line feed.  `none` is the
run-time panic of the index expression `d.Content[0]` on an empty slice. -/
def contextLoop (sb : String) : List Document → Option String
  | [] => some sb
  | d :: ds =>
    match d.Content[0]? with
    | none => none
    | some p => contextLoop ((sb ++ p.Text).push newline) ds

/-- Lines 154-158 and `sb.String()`: the loop run on a fresh builder. -/
def assembleContext (docs : List Document) : Option String :=
  contextLoop "" docs

/-- The three calls the flow makes outside the program. -/
structure FlowDeps (σ : Type) where
  /-- The call `milvus.Index(ctx, docs, docStore)`. -/
  index : List Document → σ → Option GoError × σ
  /-- The call `genkit.Retrieve` with the query document and the options. -/
  retrieve : Document → RetrieverOptions → σ → Except GoError RetrieverResponse × σ
  /-- The call `prompt.Execute(ctx, ai.WithInput(input))`. -/
  execute : promptInput → σ → Except GoError ModelResponse × σ

/-- One call issued by the flow, with its argument. -/
inductive Call where
  | index (docs : List Document)
  | retrieve (queryDoc : Document) (opts : RetrieverOptions)
  | execute (input : promptInput)
  deriving DecidableEq, Repr

/-- Whether a call is the indexing step. -/
def Call.isIndex : Call → Bool
  | .index _ => true
  | _ => false

/-- Whether a call is the retrieval step. -/
def Call.isRetrieve : Call → Bool
  | .retrieve _ _ => true
  | _ => false

/-- Whether a call is the generation step. -/
def Call.isExecute : Call → Bool
  | .execute _ => true
  | _ => false

/-- What a flow run hands to its caller: the Go result pair `(string, error)`,
or nothing at all when the closure panics. -/
inductive FlowResult where
  | returned (text : String) (err : Option GoError)
  | panicked
  deriving DecidableEq, Repr

/-- A finished flow run: its result, the world it leaves and the calls it
issued, oldest first. -/
structure FlowRun (σ : Type) where
  result : FlowResult
  state : σ
  calls : List Call

/-- The closure passed to `genkit.DefineFlow`. -/
def flow {σ : Type} (deps : FlowDeps σ) (query : String) (s : σ) : FlowRun σ :=
  match deps.index indexDocs s with
  | (some err, s1) =>
    ⟨.returned "" (some (Errorf "failed indexing documents: " err)), s1,
      [.index indexDocs]⟩
  | (none, s1) =>
    let queryDoc := DocumentFromText query []
    let opts : RetrieverOptions := { Limit := 2 }
    match deps.retrieve queryDoc opts s1 with
    | (.error err, s2) =>
      ⟨.returned "" (some (Errorf "failed retrieving documents: " err)), s2,
        [.index indexDocs, .retrieve queryDoc opts]⟩
    | (.ok retrieveDocs, s2) =>
      match assembleContext retrieveDocs.Documents with
      | none => ⟨.panicked, s2, [.index indexDocs, .retrieve queryDoc opts]⟩
      | some context =>
        let input : promptInput := { Question := query, Context := context }
        match deps.execute input s2 with
        | (.error err, s3) =>
          ⟨.returned "" (some (Errorf "failed executing prompt: " err)), s3,
            [.index indexDocs, .retrieve queryDoc opts, .execute input]⟩
        | (.ok promptRes, s3) =>
          ⟨.returned promptRes.Text none, s3,
            [.index indexDocs, .retrieve queryDoc opts, .execute input]⟩

/-- Collaborators that keep a log next to the world state: every call that is
really made runs the underlying collaborator on the world and appends itself
to the log.  Running the flow over them observes its invocations from
outside, whatever the flow itself reports. -/
def traced {σ : Type} (deps : FlowDeps σ) : FlowDeps (σ × List Call) where
  index docs st :=
    ((deps.index docs st.1).1, ((deps.index docs st.1).2, st.2 ++ [.index docs]))
  retrieve q opts st :=
    ((deps.retrieve q opts st.1).1,
      ((deps.retrieve q opts st.1).2, st.2 ++ [.retrieve q opts]))
  execute input st :=
    ((deps.execute input st.1).1, ((deps.execute input st.1).2, st.2 ++ [.execute input]))

/-! ## The collection bootstrap (`main.go`, lines 39-87) -/

/-- The field types of `entity` that the program names (`FieldTypeNone` is the
zero value of a fresh field). -/
inductive FieldType where
  | FieldTypeNone
  | FieldTypeInt64
  | FieldTypeVarChar
  | FieldTypeFloatVector
  deriving DecidableEq, Repr

/-- The similarity metrics of `entity`. -/
inductive MetricType where
  | L2
  | IP
  | COSINE
  deriving DecidableEq, Repr

/-- The type `entity.Field`; the type parameters `dim` and `max_length` are
kept as optional integers (`none`: not set). -/
structure Field where
  Name : String
  DataType : FieldType
  PrimaryKey : Bool
  AutoID : Bool
  Dim : Option Int
  MaxLength : Option Int
  deriving DecidableEq, Repr

/-- The constructor `entity.NewField()`: every field at its zero value. -/
def NewField : Field :=
  { Name := "", DataType := .FieldTypeNone, PrimaryKey := false, AutoID := false,
    Dim := none, MaxLength := none }

def Field.WithName (f : Field) (name : String) : Field := { f with Name := name }

def Field.WithIsAutoID (f : Field) (b : Bool) : Field := { f with AutoID := b }

def Field.WithDataType (f : Field) (t : FieldType) : Field := { f with DataType := t }

def Field.WithIsPrimaryKey (f : Field) (b : Bool) : Field := { f with PrimaryKey := b }

def Field.WithDim (f : Field) (dim : Int) : Field := { f with Dim := some dim }

def Field.WithMaxLength (f : Field) (n : Int) : Field := { f with MaxLength := some n }

/-- The type `entity.Schema`. -/
structure Schema where
  EnableDynamicField : Bool
  Fields : List Field
  deriving DecidableEq, Repr

/-- The constructor `entity.NewSchema()`. -/
def NewSchema : Schema := { EnableDynamicField := false, Fields := [] }

def Schema.WithDynamicFieldEnabled (s : Schema) (b : Bool) : Schema :=
  { s with EnableDynamicField := b }

/-- The method `WithField`: the field is appended. -/
def Schema.WithField (s : Schema) (f : Field) : Schema :=
  { s with Fields := s.Fields ++ [f] }

/-- An index description of package `index`; the program builds only
`index.NewAutoIndex(metric)`. -/
inductive Index where
  | AutoIndex (metric : MetricType)
  deriving DecidableEq, Repr

/-- The value `milvusclient.NewCreateIndexOption(collection, field, index)`. -/
structure CreateIndexOption where
  collectionName : String
  fieldName : String
  index : Index
  deriving DecidableEq, Repr

/-- The value `milvusclient.NewCreateCollectionOption(name, schema)` with its
index options. -/
structure CreateCollectionOption where
  name : String
  schema : Schema
  indexOptions : List CreateIndexOption
  deriving DecidableEq, Repr

def CreateCollectionOption.WithIndexOptions (o : CreateCollectionOption)
    (indexes : List CreateIndexOption) : CreateCollectionOption :=
  { o with indexOptions := o.indexOptions ++ indexes }

/-- The value `milvusclient.NewDeleteOption(collection).WithInt64IDs(field, ids)`. -/
structure DeleteOption where
  collectionName : String
  idField : String
  ids : List Int
  deriving DecidableEq, Repr

/-- The task returned by `LoadCollection`, on which the program calls `Await`. -/
structure LoadTask where
  collectionName : String
  deriving DecidableEq, Repr

/-- The result of `Delete`; the program discards it. -/
structure DeleteResult where
  DeleteCount : Int
  deriving DecidableEq, Repr

/-- The calls the program makes on `engine.GetClient()`, acting on the world
state `σ`. -/
structure Client (σ : Type) where
  HasCollection : String → σ → Except GoError Bool × σ
  CreateCollection : CreateCollectionOption → σ → Option GoError × σ
  LoadCollection : String → σ → Except GoError LoadTask × σ
  Await : LoadTask → σ → Option GoError × σ
  Delete : DeleteOption → σ → Except GoError DeleteResult × σ

/-- One call issued on the store client, with its argument. -/
inductive StoreCall where
  | HasCollection (name : String)
  | CreateCollection (opt : CreateCollectionOption)
  | LoadCollection (name : String)
  | Await (task : LoadTask)
  | Delete (opt : DeleteOption)
  deriving DecidableEq, Repr

/-- How a stretch of `main` ends: it falls through to the next statement, or
`log.Fatalf` ends the process with the given message. -/
inductive Outcome where
  | ok
  | fatal (message : String)
  deriving DecidableEq, Repr

/-- A finished stretch of `main`: how it ended, the world it leaves and the
store calls it issued, oldest first. -/
structure Run (σ : Type) where
  outcome : Outcome
  state : σ
  calls : List StoreCall

/-- The call `log.Fatalf(format ++ "%v", err)`. -/
def Fatalf (format : String) (err : GoError) : Outcome :=
  .fatal (format ++ err.msg)

/-- The locals of `main`. -/
def collectionName : String := "products"
def idKey : String := "id"
def vectorKey : String := "vector"
def vectorDim : Int := 1536
def textKey : String := "text"

/-- The slice `indexes` of lines 45-48. -/
def indexes : List CreateIndexOption :=
  [ ⟨collectionName, vectorKey, .AutoIndex .COSINE⟩ ]

/-- The value `schema` of lines 49-65. -/
def schema : Schema :=
  ((NewSchema.WithDynamicFieldEnabled true
    |>.WithField
      (NewField.WithName idKey |>.WithIsAutoID false |>.WithDataType .FieldTypeInt64
        |>.WithIsPrimaryKey true))
    |>.WithField
      (NewField.WithName vectorKey |>.WithDataType .FieldTypeFloatVector
        |>.WithDim vectorDim))
    |>.WithField
      (NewField.WithName textKey |>.WithDataType .FieldTypeVarChar |>.WithMaxLength 512)

/-- The argument of `CreateCollection` at lines 67-70. -/
def createOption : CreateCollectionOption :=
  (CreateCollectionOption.mk collectionName schema []).WithIndexOptions indexes

/-- Lines 39-81: check whether the collection exists; when it does not, create
it and load it. -/
def bootstrap {σ : Type} (c : Client σ) (s : σ) : Run σ :=
  match c.HasCollection collectionName s with
  | (.error err, s1) =>
    ⟨Fatalf "failed checking if collection exists: " err, s1,
      [.HasCollection collectionName]⟩
  | (.ok true, s1) => ⟨.ok, s1, [.HasCollection collectionName]⟩
  | (.ok false, s1) =>
    match c.CreateCollection createOption s1 with
    | (some err, s2) =>
      ⟨Fatalf "failed creating collection: " err, s2,
        [.HasCollection collectionName, .CreateCollection createOption]⟩
    | (none, s2) =>
      match c.LoadCollection collectionName s2 with
      | (.error err, s3) =>
        ⟨Fatalf "failed loading collection: " err, s3,
          [.HasCollection collectionName, .CreateCollection createOption,
            .LoadCollection collectionName]⟩
      | (.ok task, s3) =>
        match c.Await task s3 with
        | (some err, s4) =>
          ⟨Fatalf "failed waiting for collection load: " err, s4,
            [.HasCollection collectionName, .CreateCollection createOption,
              .LoadCollection collectionName, .Await task]⟩
        | (none, s4) =>
          ⟨.ok, s4,
            [.HasCollection collectionName, .CreateCollection createOption,
              .LoadCollection collectionName, .Await task]⟩

/-- The argument of `Delete` at lines 83-84. -/
def deleteOption : DeleteOption :=
  ⟨collectionName, idKey, [id1, id2, id3, id4]⟩

/-- Lines 83-87: delete the records with the four ids. -/
def deleteStep {σ : Type} (c : Client σ) (s : σ) : Run σ :=
  match c.Delete deleteOption s with
  | (.error err, s1) => ⟨Fatalf "failed deleting collection: " err, s1, [.Delete deleteOption]⟩
  | (.ok _, s1) => ⟨.ok, s1, [.Delete deleteOption]⟩

/-- How the whole of `main` ends before it blocks on `<-ctx.Done()`: the flow
result was logged, `log.Fatalf` ended the process, or the flow panicked. -/
inductive ProgramResult where
  | logged (res : String)
  | fatal (message : String)
  | panicked
  deriving DecidableEq, Repr

/-- A finished program run. -/
structure ProgramRun (σ : Type) where
  result : ProgramResult
  state : σ
  storeCalls : List StoreCall
  flowCalls : List Call

/-- Lines 39-177 in order: bootstrap, delete, then one run of the flow on the
fixed query of line 173.  The set-up calls in between (engine, plugins,
`DefineRetriever`, `DefinePrompt`) are taken to succeed. -/
def programRun {σ : Type} (c : Client σ) (deps : FlowDeps σ) (s : σ) : ProgramRun σ :=
  let b := bootstrap c s
  match b.outcome with
  | .fatal m => ⟨.fatal m, b.state, b.calls, []⟩
  | .ok =>
    let d := deleteStep c b.state
    match d.outcome with
    | .fatal m => ⟨.fatal m, d.state, b.calls ++ d.calls, []⟩
    | .ok =>
      let f := flow deps "I want to buy an iphone" d.state
      match f.result with
      | .panicked => ⟨.panicked, f.state, b.calls ++ d.calls, f.calls⟩
      | .returned _ (some err) =>
        ⟨.fatal ("failed running flow: " ++ err.msg), f.state, b.calls ++ d.calls, f.calls⟩
      | .returned res none => ⟨.logged res, f.state, b.calls ++ d.calls, f.calls⟩

/-! ## What the bootstrap relies on from the store -/

/-- The behaviour of the store client that the bootstrap depends on, stated on
the calls themselves: the existence check does not change the store, a call
that reports an error leaves the store as it was, a collection that was
created is reported as existing, and loading keeps it existing. -/
structure StoreLaws {σ : Type} (c : Client σ) : Prop where
  has_readonly : ∀ s, (c.HasCollection collectionName s).2 = s
  create_error : ∀ opt s e s1, c.CreateCollection opt s = (some e, s1) → s1 = s
  create_ok : ∀ opt s s1, opt.name = collectionName →
    c.CreateCollection opt s = (none, s1) → (c.HasCollection collectionName s1).1 = .ok true
  load_error : ∀ s e s1, c.LoadCollection collectionName s = (.error e, s1) → s1 = s
  load_ok : ∀ s t s1, (c.HasCollection collectionName s).1 = .ok true →
    c.LoadCollection collectionName s = (.ok t, s1) →
    (c.HasCollection collectionName s1).1 = .ok true
  await_error : ∀ t s e s1, c.Await t s = (some e, s1) → s1 = s
  await_ok : ∀ t s s1, (c.HasCollection collectionName s).1 = .ok true →
    c.Await t s = (none, s1) → (c.HasCollection collectionName s1).1 = .ok true

/-! ## A reference store -/

/-- Modelled from the spec: the persisted unit of section 3, a primary key, a
vector, a text and the dynamic fields.  The vector store itself is an external
service and is not part of the repository; `κ` is the type of a vector
component, on which nothing is computed. -/
structure Record (κ : Type) where
  primaryKey : Int
  vector : List κ
  text : String
  dynamic : List (String × AnyValue)
  deriving DecidableEq, Repr

/-- Modelled from the spec: one named collection of the external store, the
schema and index it was created with, whether it is loaded, and its records
(a list: the store does not itself keep primary keys unique). -/
structure Collection (κ : Type) where
  schema : Schema
  indexes : List CreateIndexOption
  loaded : Bool
  records : List (Record κ)
  deriving DecidableEq, Repr

/-- Modelled from the spec: the external vector store, its collections by
name. -/
structure Store (κ : Type) where
  collections : List (String × Collection κ)
  deriving DecidableEq, Repr

/-- The collection of a given name, when there is one. -/
def Store.find {κ : Type} (st : Store κ) (name : String) : Option (Collection κ) :=
  st.collections.lookup name

/-- Apply `f` to the first entry of the given name in a list of named
collections, the entry a lookup of that name returns. -/
def updateFirst {κ : Type} (name : String) (f : Collection κ → Collection κ) :
    List (String × Collection κ) → List (String × Collection κ)
  | [] => []
  | nc :: rest =>
    if nc.1 = name then (nc.1, f nc.2) :: rest else nc :: updateFirst name f rest

/-- Apply `f` to the collection of the given name, when there is one. -/
def Store.update {κ : Type} (st : Store κ) (name : String)
    (f : Collection κ → Collection κ) : Store κ :=
  ⟨updateFirst name f st.collections⟩

/-- The dimension an existing collection was created with: that of its first
float-vector field. -/
def Collection.vectorDim {κ : Type} (c : Collection κ) : Option Int :=
  match c.schema.Fields.find? (fun f => f.DataType = .FieldTypeFloatVector) with
  | some f => f.Dim
  | none => none

/-- The similarity metric an existing collection was created with: that of its
first index. -/
def Collection.metric {κ : Type} (c : Collection κ) : Option MetricType :=
  match c.indexes with
  | ⟨_, _, .AutoIndex m⟩ :: _ => some m
  | [] => none

/-- Modelled from the spec: `delete` of section 4.1 on one collection, the
records whose primary key is listed are removed; an id that is absent is a
no-op. -/
def Collection.delete {κ : Type} (ids : List Int) (c : Collection κ) : Collection κ :=
  { c with records := c.records.filter fun r => r.primaryKey ∉ ids }

/-- Modelled from the spec: the store operations of section 4.1 behind the
client calls of `main.go`, for a store that is reachable (no connectivity
failure).  `delete` removes the records whose primary key is listed and is a
no-op for an id that is absent.  Creating a name that exists is reported as an
error; the bootstrap never does so. -/
def milvusClient {κ : Type} : Client (Store κ) where
  HasCollection name st := (.ok (st.find name).isSome, st)
  CreateCollection opt st :=
    if (st.find opt.name).isSome then
      (some ⟨"collection already exists"⟩, st)
    else
      (none, ⟨st.collections ++
        [(opt.name, { schema := opt.schema, indexes := opt.indexOptions, loaded := false,
                      records := [] })]⟩)
  LoadCollection name st :=
    if (st.find name).isSome then
      (.ok ⟨name⟩, st.update name fun c => { c with loaded := true })
    else
      (.error ⟨"collection not found"⟩, st)
  Await _ st := (none, st)
  Delete opt st :=
    match st.find opt.collectionName with
    | none => (.error ⟨"collection not found"⟩, st)
    | some c =>
      (.ok ⟨((c.records.filter fun r => r.primaryKey ∈ opt.ids).length : Nat)⟩,
        st.update opt.collectionName (Collection.delete opt.ids))

/-- The struct `milvus.CollectionConfig` as filled in at lines 94-102. -/
structure CollectionConfig (κ : Type) where
  Name : String
  VectorDim : Int
  IdKey : String
  VectorKey : String
  TextKey : String
  ScoreKey : String
  Embedder : String → Except GoError (List κ)

/-- The value `colCfg` of `main`, for an embedder `e`. -/
def colCfg {κ : Type} (e : String → Except GoError (List κ)) : CollectionConfig κ :=
  { Name := collectionName, VectorDim := 1536, IdKey := idKey, VectorKey := vectorKey,
    TextKey := textKey, ScoreKey := "score", Embedder := e }

/-- The text of a document: its text parts joined. -/
def Document.text (d : Document) : String :=
  String.join (d.Content.map Part.Text)

/-- The primary key a document carries in its metadata under `idKey`. -/
def Document.id (key : String) (d : Document) : Option Int :=
  match d.Metadata.lookup key with
  | some (.int64 v) => some v
  | _ => none

/-- Modelled from the spec: section 4.2, one document to one record for a
collection whose stored schema has vector dimension `dim` (`none`: the schema
has no vector field).  The vector is `embed(doc.text)`, it fails with
`DimensionMismatch` when its length is not `collection.schema.vectorDim`, and
the primary key is the document id. -/
def toRecord {κ : Type} (cfg : CollectionConfig κ) (dim : Option Int) (d : Document) :
    Except GoError (Record κ) :=
  match cfg.Embedder d.text with
  | .error e => .error e
  | .ok v =>
    if some (v.length : Int) ≠ dim then .error ⟨"DimensionMismatch"⟩
    else
      match d.id cfg.IdKey with
      | none => .error ⟨"document without id"⟩
      | some k => .ok { primaryKey := k, vector := v, text := d.text, dynamic := d.Metadata }

/-- Modelled from the spec: all documents to records, failing at the first
document that fails. -/
def toRecords {κ : Type} (cfg : CollectionConfig κ) (dim : Option Int) :
    List Document → Except GoError (List (Record κ))
  | [] => .ok []
  | d :: ds =>
    match toRecord cfg dim d with
    | .error e => .error e
    | .ok r =>
      match toRecords cfg dim ds with
      | .error e => .error e
      | .ok rs => .ok (r :: rs)

/-- How the indexer writes a batch: appended as it is, or insert-or-replace by
primary key.  The spec asks for the second and says the program's delete
before indexing exists because the first may be all there is. -/
inductive WriteMode where
  | insert
  | upsert
  deriving DecidableEq, Repr

/-- Modelled from the spec: the bulk write of section 4.1 on the records of a
collection. -/
def writeRecords {κ : Type} (mode : WriteMode) (batch : List (Record κ))
    (records : List (Record κ)) : List (Record κ) :=
  match mode with
  | .insert => records ++ batch
  | .upsert =>
    (records.filter fun r => r.primaryKey ∉ batch.map Record.primaryKey) ++ batch

/-- The bulk write on one collection. -/
def Collection.write {κ : Type} (mode : WriteMode) (batch : List (Record κ))
    (c : Collection κ) : Collection κ :=
  { c with records := writeRecords mode batch c.records }

/-- Modelled from the spec: `index` of section 4.2 behind the call
`milvus.Index(ctx, docs, docStore)`.  The records are assembled against the
dimension of the stored collection (not against the configuration of the
caller) and, when every document passed, written in one call; a failure
writes nothing. -/
def milvusIndex {κ : Type} (mode : WriteMode) (cfg : CollectionConfig κ)
    (docs : List Document) (st : Store κ) : Option GoError × Store κ :=
  match st.find cfg.Name with
  | none => (some ⟨"collection not found"⟩, st)
  | some c =>
    match toRecords cfg c.vectorDim docs with
    | .error e => (some e, st)
    | .ok batch => (none, st.update cfg.Name (Collection.write mode batch))

/-- The collaborators of the flow over the reference store: indexing writes
to the store; retrieval reads it through an arbitrary search function and
generation is an arbitrary function of the prompt input, and neither changes
the store. -/
def milvusDeps {κ : Type} (mode : WriteMode) (cfg : CollectionConfig κ)
    (search : Store κ → Document → RetrieverOptions → Except GoError RetrieverResponse)
    (generate : promptInput → Except GoError ModelResponse) : FlowDeps (Store κ) where
  index docs st := milvusIndex mode cfg docs st
  retrieve q opts st := (search st q opts, st)
  execute input st := (generate input, st)

/-- The number of records with primary key `k` in the collection `name`; `none`
when there is no such collection. -/
def Store.countId {κ : Type} (st : Store κ) (name : String) (k : Int) : Option Nat :=
  (st.find name).map fun c => (c.records.filter fun r => r.primaryKey = k).length

/-- The text the flow reads from a document: that of its first content part
(the empty string stands for a document without parts, which the loop never
reads). -/
def Document.firstText (d : Document) : String :=
  match d.Content with
  | p :: _ => p.Text
  | [] => ""

/-- The line a document contributes to the context: its text and one line
feed. -/
def Document.line (d : Document) : String :=
  d.firstText ++ String.singleton newline

/-! ## Concrete collaborators -/

/-- Collaborators in which indexing succeeds, retrieval returns no document and
generation fails with the error "quota exceeded". -/
def failingGeneration : FlowDeps Unit where
  index _ s := (none, s)
  retrieve _ _ s := (.ok ⟨[]⟩, s)
  execute _ s := (.error ⟨"quota exceeded"⟩, s)

/-- Collaborators in which indexing succeeds and retrieval returns a single
document that has no content part. -/
def partlessDeps : FlowDeps Unit where
  index _ s := (none, s)
  retrieve _ _ s := (.ok ⟨[⟨[], []⟩]⟩, s)
  execute _ s := (.ok ⟨"unreachable"⟩, s)

/-- Collaborators over a call counter: indexing succeeds, retrieval returns two
of the indexed documents, and generation answers with the context it was
given. -/
def sampleDeps : FlowDeps Nat where
  index _ s := (none, s + 1)
  retrieve _ _ s :=
    (.ok ⟨[DocumentFromText "Pixel 9 $800" [("id", .int64 3)],
           DocumentFromText "Xiaomi 15 $300" [("id", .int64 4)]]⟩, s + 1)
  execute input s := (.ok ⟨"Take one of: " ++ input.Context⟩, s + 1)

/-- A store that already holds a collection named "products" created with
vector dimension 768 and metric L2, loaded and empty. -/
def conflictStore : Store Nat :=
  ⟨[("products",
      { schema :=
          { EnableDynamicField := false,
            Fields := [⟨"id", .FieldTypeInt64, true, false, none, none⟩,
                       ⟨"vector", .FieldTypeFloatVector, false, false, some 768, none⟩] },
        indexes := [⟨"products", "vector", .AutoIndex .L2⟩],
        loaded := true,
        records := [] })]⟩

/-- A store without any collection. -/
def emptyStore : Store Nat := ⟨[]⟩

/-- A store whose collection "products" has the schema and index of the
program (dimension 1536, COSINE) and already holds five records: two with
primary key 1, one with 2, one with 3, none with 4, and one with the foreign
primary key 7. -/
def seededStore : Store Nat :=
  ⟨[("products",
      { schema := schema, indexes := indexes, loaded := true,
        records :=
          [ ⟨1, List.replicate 1536 0, "iPhone 16 $900", [("id", .int64 1)]⟩,
            ⟨1, List.replicate 1536 0, "iPhone 17 $1000", [("id", .int64 1)]⟩,
            ⟨2, List.replicate 1536 0, "Samsung s25 $900", [("id", .int64 2)]⟩,
            ⟨7, List.replicate 1536 0, "Nokia 3310 $50", [("id", .int64 7)]⟩,
            ⟨3, List.replicate 1536 0, "Pixel 9 $800", [("id", .int64 3)]⟩ ] })]⟩

/-- A store whose collection "products" was created with vector dimension
768 and metric L2 and holds one record for each of the primary keys 1 to 4. -/
def staleStore : Store Nat :=
  ⟨[("products",
      { schema :=
          { EnableDynamicField := true,
            Fields := [⟨"id", .FieldTypeInt64, true, false, none, none⟩,
                       ⟨"vector", .FieldTypeFloatVector, false, false, some 768, none⟩,
                       ⟨"text", .FieldTypeVarChar, false, false, none, some 512⟩] },
        indexes := [⟨"products", "vector", .AutoIndex .L2⟩],
        loaded := true,
        records :=
          [ ⟨1, List.replicate 768 0, "iPhone 17 $1000", [("id", .int64 1)]⟩,
            ⟨2, List.replicate 768 0, "Samsung s25 $900", [("id", .int64 2)]⟩,
            ⟨3, List.replicate 768 0, "Pixel 9 $800", [("id", .int64 3)]⟩,
            ⟨4, List.replicate 768 0, "Xiaomi 15 $300", [("id", .int64 4)]⟩ ] })]⟩

/-- An embedder that maps every text to the zero vector of dimension 1536. -/
def zeroEmbed : String → Except GoError (List Nat) :=
  fun _ => .ok (List.replicate 1536 0)

/-! ## Theorems: context assembly -/

theorem contextLoop_data (docs : List Document) (h : ∀ d ∈ docs, d.Content ≠ []) (sb : String) :
    contextLoop sb docs = some (sb ++ String.join (docs.map Document.line)) := by
  induction docs generalizing sb with
  | nil => simp [contextLoop, String.join]
  | cons d ds ih =>
    have hd : d.Content ≠ [] := h d (List.mem_cons_self _ _)
    have hds : ∀ x ∈ ds, x.Content ≠ [] := fun x hx => h x (List.mem_cons_of_mem _ hx)
    cases hc : d.Content with
    | nil => exact absurd hc hd
    | cons p ps =>
      simp only [contextLoop, hc, List.getElem?_cons_zero]
      rw [ih hds]
      congr 1
      apply String.ext
      simp [Document.line, Document.firstText, hc, String.singleton_eq]

theorem contextLoop_none (docs : List Document) (h : ∃ d ∈ docs, d.Content = []) (sb : String) :
    contextLoop sb docs = none := by
  induction docs generalizing sb with
  | nil => simp at h
  | cons d ds ih =>
    cases hc : d.Content with
    | nil => simp [contextLoop, hc]
    | cons p ps =>
      simp only [contextLoop, hc, List.getElem?_cons_zero]
      apply ih
      obtain ⟨x, hx, hx0⟩ := h
      rcases List.mem_cons.mp hx with rfl | hx
      · rw [hc] at hx0; cases hx0
      · exact ⟨x, hx, hx0⟩

theorem assembleContext_eq (docs : List Document) (h : ∀ d ∈ docs, d.Content ≠ []) :
    assembleContext docs = some (String.join (docs.map Document.line)) := by
  simp [assembleContext, contextLoop_data docs h]

theorem count_newline_lines (docs : List Document)
    (h : ∀ d ∈ docs, newline ∉ d.firstText.data) :
    (String.join (docs.map Document.line)).data.count newline = docs.length := by
  induction docs with
  | nil => simp
  | cons d ds ih =>
    have hd := h d (List.mem_cons_self _ _)
    have hds : ∀ x ∈ ds, newline ∉ x.firstText.data := fun x hx => h x (List.mem_cons_of_mem _ hx)
    have ih2 := ih hds
    simp only [String.data_join] at ih2
    simp only [String.data_join, List.map_cons, List.flatten_cons, List.count_append,
      List.length_cons, ih2]
    simp [Document.line, String.singleton_eq, List.count_eq_zero_of_not_mem hd]
    omega

/-- C1: for every sequence of retrieved documents in which each document has at
least one content part, the context string is the concatenation, in order, of
each document's text followed by one line feed; the empty sequence gives the
empty string, and when no text contains a line feed the context holds exactly
as many line feeds as there are documents. -/
theorem assembleContext_concat (docs : List Document) (h : ∀ d ∈ docs, d.Content ≠ []) :
    assembleContext docs = some (String.join (docs.map Document.line)) ∧
    (docs = [] → assembleContext docs = some "") ∧
    ((∀ d ∈ docs, newline ∉ d.firstText.data) →
      ∃ context, assembleContext docs = some context ∧
        context.data.count newline = docs.length) := by
  refine ⟨assembleContext_eq docs h, ?_, ?_⟩
  · intro h0
    subst h0
    rfl
  · intro hn
    exact ⟨_, assembleContext_eq docs h, count_newline_lines docs hn⟩

theorem assembleContext_concat_witness :
    (∀ d ∈ [DocumentFromText "Pixel 9 $800" [], DocumentFromText "Xiaomi 15 $300" []],
      d.Content ≠ []) ∧
    assembleContext [DocumentFromText "Pixel 9 $800" [], DocumentFromText "Xiaomi 15 $300" []]
      = some (String.join
          ([DocumentFromText "Pixel 9 $800" [], DocumentFromText "Xiaomi 15 $300" []].map
            Document.line)) :=
  ⟨by simp [DocumentFromText],
    (assembleContext_concat
      [DocumentFromText "Pixel 9 $800" [], DocumentFromText "Xiaomi 15 $300" []]
      (by simp [DocumentFromText])).1⟩

/-- C10: the context assembly completes exactly on the retrieved sequences in
which every document has at least one content part; on every sequence that
contains a document without parts the index expression is out of range, and a
flow run that retrieves such a sequence panics: it returns neither a text nor
an error, and the generation step is not reached.  The sequence made of one
document without parts is such a sequence, and a flow run whose retrieval
returns it panics. -/
theorem assembleContext_total_iff :
    (∀ docs : List Document,
      (assembleContext docs).isSome = true ↔ ∀ d ∈ docs, d.Content ≠ []) ∧
    (∀ (σ : Type) (deps : FlowDeps σ) (query : String) (s s1 s2 : σ) (r : RetrieverResponse),
      deps.index indexDocs s = (none, s1) →
      deps.retrieve (DocumentFromText query []) ⟨2⟩ s1 = (.ok r, s2) →
      (∃ d ∈ r.Documents, d.Content = []) →
      (flow deps query s).result = .panicked ∧
        (flow deps query s).calls.countP Call.isExecute = 0) ∧
    assembleContext [⟨[], []⟩] = none ∧
    (flow partlessDeps "I want to buy an iphone" ()).result = .panicked := by
  refine ⟨?_, ?_, rfl, rfl⟩
  · intro docs
    constructor
    · intro hs d hd hc
      rw [assembleContext, contextLoop_none docs ⟨d, hd, hc⟩] at hs
      cases hs
    · intro h
      rw [assembleContext_eq docs h]
      rfl
  · intro σ deps query s s1 s2 r hi hr hex
    have hnone : assembleContext r.Documents = none := contextLoop_none _ hex _
    simp [flow, hi, hr, hnone, Call.isExecute]

/-! ## Theorems: the flow -/

/-- C2: whichever of the three steps fails with error `e`, the flow returns the
empty string and an error whose message is the prefix of that step followed by
the message of `e`; messages built from different prefixes are never equal, so
the three prefixes are pairwise distinct and the error identifies the step. -/
theorem flow_error_identifies_step {σ : Type} (deps : FlowDeps σ) (query : String) (s : σ)
    (e : GoError) :
    (∀ s1, deps.index indexDocs s = (some e, s1) →
      (flow deps query s).result =
        .returned "" (some ⟨"failed indexing documents: " ++ e.msg⟩)) ∧
    (∀ s1 s2, deps.index indexDocs s = (none, s1) →
      deps.retrieve (DocumentFromText query []) ⟨2⟩ s1 = (.error e, s2) →
      (flow deps query s).result =
        .returned "" (some ⟨"failed retrieving documents: " ++ e.msg⟩)) ∧
    (∀ s1 s2 s3 r context, deps.index indexDocs s = (none, s1) →
      deps.retrieve (DocumentFromText query []) ⟨2⟩ s1 = (.ok r, s2) →
      assembleContext r.Documents = some context →
      deps.execute ⟨query, context⟩ s2 = (.error e, s3) →
      (flow deps query s).result =
        .returned "" (some ⟨"failed executing prompt: " ++ e.msg⟩)) ∧
    (∀ m1 m2 : String,
      "failed indexing documents: " ++ m1 ≠ "failed retrieving documents: " ++ m2 ∧
      "failed indexing documents: " ++ m1 ≠ "failed executing prompt: " ++ m2 ∧
      "failed retrieving documents: " ++ m1 ≠ "failed executing prompt: " ++ m2) := by
  refine ⟨?_, ?_, ?_, ?_⟩
  · intro s1 hi
    simp [flow, hi, Errorf]
  · intro s1 s2 hi hr
    simp [flow, hi, hr, Errorf]
  · intro s1 s2 s3 r context hi hr hc hx
    simp [flow, hi, hr, hc, hx, Errorf]
  · intro m1 m2
    refine ⟨?_, ?_, ?_⟩ <;>
    · intro h
      have hd := congrArg String.data h
      simp at hd

theorem flow_traced {σ : Type} (deps : FlowDeps σ) (query : String) (s : σ) :
    (flow (traced deps) query (s, [])).state =
        ((flow deps query s).state, (flow deps query s).calls) ∧
      (flow (traced deps) query (s, [])).result = (flow deps query s).result := by
  unfold flow
  simp only [traced]
  rcases hi : deps.index indexDocs s with ⟨_ | e, s1⟩
  · simp only
    rcases hr : deps.retrieve (DocumentFromText query []) ⟨2⟩ s1 with ⟨e | r, s2⟩
    · exact ⟨rfl, rfl⟩
    · simp only
      cases hc : assembleContext r.Documents with
      | none => exact ⟨rfl, rfl⟩
      | some context =>
        simp only
        rcases hx : deps.execute ⟨query, context⟩ s2 with ⟨e | resp, s3⟩ <;>
          exact ⟨rfl, rfl⟩
  · exact ⟨rfl, rfl⟩

/-- C3: when retrieval fails the generation step is not invoked: the flow ends
in the very world the failed retrieval left, the log kept by the traced
collaborators holds the indexing and the retrieval and nothing else, and the
flow returns the empty text with the retrieval error; when indexing fails
neither retrieval nor generation is invoked: the flow ends in the world the
failed indexing left and the log holds the indexing only.  In every run the
log kept by the traced collaborators is the list of calls the flow reports,
and each of the three steps occurs in it at most once. -/
theorem flow_no_call_after_failure {σ : Type} (deps : FlowDeps σ) (query : String) (s : σ) :
    (∀ e s1 s2, deps.index indexDocs s = (none, s1) →
      deps.retrieve (DocumentFromText query []) ⟨2⟩ s1 = (.error e, s2) →
      (flow deps query s).state = s2 ∧
        (flow (traced deps) query (s, [])).state =
          (s2, [.index indexDocs, .retrieve (DocumentFromText query []) ⟨2⟩]) ∧
        (flow deps query s).result =
          .returned "" (some (Errorf "failed retrieving documents: " e)) ∧
        (flow deps query s).calls.countP Call.isExecute = 0 ∧
        ∃ err, (flow deps query s).result = .returned "" (some err)) ∧
    (∀ e s1, deps.index indexDocs s = (some e, s1) →
      (flow deps query s).state = s1 ∧
        (flow (traced deps) query (s, [])).state = (s1, [.index indexDocs]) ∧
        (flow deps query s).result =
          .returned "" (some (Errorf "failed indexing documents: " e)) ∧
        (flow deps query s).calls.countP Call.isRetrieve = 0 ∧
        (flow deps query s).calls.countP Call.isExecute = 0 ∧
        ∃ err, (flow deps query s).result = .returned "" (some err)) ∧
    ((flow deps query s).calls.countP Call.isIndex ≤ 1 ∧
      (flow deps query s).calls.countP Call.isRetrieve ≤ 1 ∧
      (flow deps query s).calls.countP Call.isExecute ≤ 1) ∧
    (flow (traced deps) query (s, [])).state =
      ((flow deps query s).state, (flow deps query s).calls) ∧
    ((flow (traced deps) query (s, [])).state.2.countP Call.isIndex ≤ 1 ∧
      (flow (traced deps) query (s, [])).state.2.countP Call.isRetrieve ≤ 1 ∧
      (flow (traced deps) query (s, [])).state.2.countP Call.isExecute ≤ 1) := by
  have hcount : (flow deps query s).calls.countP Call.isIndex ≤ 1 ∧
      (flow deps query s).calls.countP Call.isRetrieve ≤ 1 ∧
      (flow deps query s).calls.countP Call.isExecute ≤ 1 := by
    unfold flow
    rcases hi : deps.index indexDocs s with ⟨_ | e, s1⟩
    · rcases hr : deps.retrieve (DocumentFromText query []) ⟨2⟩ s1 with ⟨e | r, s2⟩
      · simp [hr, Call.isIndex, Call.isRetrieve, Call.isExecute]
      · cases hc : assembleContext r.Documents with
        | none => simp [hr, hc, Call.isIndex, Call.isRetrieve, Call.isExecute]
        | some context =>
          rcases hx : deps.execute ⟨query, context⟩ s2 with ⟨e | resp, s3⟩ <;>
            simp [hr, hc, hx, Call.isIndex, Call.isRetrieve, Call.isExecute]
    · simp [Call.isIndex, Call.isRetrieve, Call.isExecute]
  have htr := (flow_traced deps query s).1
  refine ⟨?_, ?_, hcount, htr, ?_⟩
  · intro e s1 s2 hi hr
    rw [htr]
    simp [flow, hi, hr, Call.isExecute]
  · intro e s1 hi
    rw [htr]
    simp [flow, hi, Call.isExecute, Call.isRetrieve]
  · rw [htr]
    exact hcount

/-- C4, as stated, fails: with a generation step that fails with the error
"quota exceeded", the error the flow returns is not that error but a new one
with the message "failed executing prompt: quota exceeded". -/
theorem generation_error_not_verbatim :
    failingGeneration.execute ⟨"q", ""⟩ () = (.error ⟨"quota exceeded"⟩, ()) ∧
    (flow failingGeneration "q" ()).result =
      .returned "" (some ⟨"failed executing prompt: quota exceeded"⟩) ∧
    (flow failingGeneration "q" ()).result ≠ .returned "" (some ⟨"quota exceeded"⟩) :=
  ⟨rfl, by decide, by decide⟩

/-- C4, amended: when the generation step fails with error `e`, the flow
returns the empty string and a new error whose message is
"failed executing prompt: " followed by the message of `e`; that error is
never `e` itself. -/
theorem flow_generation_error_prefixed {σ : Type} (deps : FlowDeps σ) (query : String)
    (s s1 s2 s3 : σ) (r : RetrieverResponse) (context : String) (e : GoError)
    (hi : deps.index indexDocs s = (none, s1))
    (hr : deps.retrieve (DocumentFromText query []) ⟨2⟩ s1 = (.ok r, s2))
    (hc : assembleContext r.Documents = some context)
    (hx : deps.execute ⟨query, context⟩ s2 = (.error e, s3)) :
    ∃ err, (flow deps query s).result = .returned "" (some err) ∧
      err.msg = "failed executing prompt: " ++ e.msg ∧ err ≠ e := by
  refine ⟨Errorf "failed executing prompt: " e, ?_, rfl, ?_⟩
  · simp [flow, hi, hr, hc, hx]
  · intro h
    have hl := congrArg (fun x => x.msg.length) h
    simp [Errorf] at hl
    exact absurd hl (by decide)

theorem flow_generation_error_prefixed_witness :
    ∃ err, (flow failingGeneration "q" ()).result = .returned "" (some err) ∧
      err.msg = "failed executing prompt: " ++ "quota exceeded" ∧
      err ≠ ⟨"quota exceeded"⟩ :=
  flow_generation_error_prefixed failingGeneration "q" () () () () ⟨[]⟩ "" ⟨"quota exceeded"⟩
    rfl rfl rfl rfl

/-- C5: when indexing, retrieval and generation all succeed, the flow returns,
with no error, exactly the text of the generation response, and its calls are,
in order, the indexing of the four documents, the retrieval for the query
document with limit 2, and the generation on the input whose question is the
query unchanged and whose context is the string assembled from the retrieved
documents. -/
theorem flow_success {σ : Type} (deps : FlowDeps σ) (query : String) (s s1 s2 s3 : σ)
    (r : RetrieverResponse) (resp : ModelResponse)
    (hi : deps.index indexDocs s = (none, s1))
    (hr : deps.retrieve (DocumentFromText query []) ⟨2⟩ s1 = (.ok r, s2))
    (hd : ∀ d ∈ r.Documents, d.Content ≠ [])
    (hx : deps.execute ⟨query, String.join (r.Documents.map Document.line)⟩ s2
      = (.ok resp, s3)) :
    (flow deps query s).result = .returned resp.Text none ∧
    (flow deps query s).calls =
      [.index indexDocs, .retrieve (DocumentFromText query []) ⟨2⟩,
        .execute ⟨query, String.join (r.Documents.map Document.line)⟩] ∧
    assembleContext r.Documents = some (String.join (r.Documents.map Document.line)) ∧
    (flow deps query s).state = s3 := by
  have hc := assembleContext_eq r.Documents hd
  simp [flow, hi, hr, hc, hx]

theorem flow_success_witness :
    (flow sampleDeps "I want a cheap phone" 0).result =
      .returned (ModelResponse.mk ("Take one of: " ++ String.join
        ([DocumentFromText "Pixel 9 $800" [("id", .int64 3)],
          DocumentFromText "Xiaomi 15 $300" [("id", .int64 4)]].map Document.line))).Text
        none :=
  (flow_success sampleDeps "I want a cheap phone" 0 1 2 3
    ⟨[DocumentFromText "Pixel 9 $800" [("id", .int64 3)],
      DocumentFromText "Xiaomi 15 $300" [("id", .int64 4)]]⟩
    ⟨"Take one of: " ++ String.join
      ([DocumentFromText "Pixel 9 $800" [("id", .int64 3)],
        DocumentFromText "Xiaomi 15 $300" [("id", .int64 4)]].map Document.line)⟩
    rfl rfl (by simp [DocumentFromText]) rfl).1

/-! ## Theorems: the collection bootstrap -/

theorem find_update {κ : Type} (st : Store κ) (name : String) (f : Collection κ → Collection κ) :
    (st.update name f).find name = (st.find name).map f := by
  obtain ⟨cols⟩ := st
  simp only [Store.update, Store.find]
  induction cols with
  | nil => rfl
  | cons nc rest ih =>
    obtain ⟨n, c⟩ := nc
    by_cases hn : n = name
    · subst hn
      simp [updateFirst, List.lookup_cons]
    · have hb : (name == n) = false := by
        simpa using fun h => hn h.symm
      simp [updateFirst, List.lookup_cons, hn, hb, ih]

theorem milvusClient_laws {κ : Type} : StoreLaws (milvusClient : Client (Store κ)) where
  has_readonly := fun _ => rfl
  create_error := by
    intro opt s e s1 h
    simp only [milvusClient] at h
    split at h
    · exact (Prod.mk.inj h).2.symm
    · cases (Prod.mk.inj h).1
  create_ok := by
    intro opt s s1 hname h
    simp only [milvusClient] at h
    split at h
    · cases (Prod.mk.inj h).1
    · have hs := (Prod.mk.inj h).2
      subst hs
      simp [milvusClient, Store.find, List.lookup_append, hname]
  load_error := by
    intro s e s1 h
    simp only [milvusClient] at h
    split at h
    · cases (Prod.mk.inj h).1
    · exact (Prod.mk.inj h).2.symm
  load_ok := by
    intro s t s1 hhas h
    simp only [milvusClient] at h hhas
    split at h
    · have hs := (Prod.mk.inj h).2
      subst hs
      simp only [milvusClient, find_update]
      simpa using hhas
    · cases (Prod.mk.inj h).1
  await_error := by
    intro t s e s1 h
    cases (Prod.mk.inj h).1
  await_ok := by
    intro t s s1 hhas h
    have hs := (Prod.mk.inj h).2
    subst hs
    exact hhas

/-- C6, as stated, fails: on a store that already holds a collection "products"
of dimension 768 with metric L2, the bootstrap reports no conflict; it ends
normally and leaves the store as it found it. -/
theorem bootstrap_accepts_conflicting_schema :
    (conflictStore.find "products").bind Collection.vectorDim = some 768 ∧
    (conflictStore.find "products").bind Collection.metric = some .L2 ∧
    (bootstrap milvusClient conflictStore).outcome = .ok ∧
    (bootstrap milvusClient conflictStore).state = conflictStore := by
  decide

/-- C6, amended: whenever the store reports that a collection named "products"
exists, whatever its dimension and metric, the bootstrap makes no other store
call than the existence check, compares nothing and ends normally. -/
theorem bootstrap_existing_no_schema_check {σ : Type} (c : Client σ) (s s1 : σ)
    (h : c.HasCollection collectionName s = (.ok true, s1)) :
    (bootstrap c s).outcome = .ok ∧
    (bootstrap c s).calls = [.HasCollection collectionName] ∧
    (bootstrap c s).state = s1 := by
  simp [bootstrap, h]

theorem bootstrap_existing_no_schema_check_witness :
    (bootstrap milvusClient conflictStore).outcome = .ok ∧
    (bootstrap milvusClient conflictStore).calls = [.HasCollection collectionName] ∧
    (bootstrap milvusClient conflictStore).state = conflictStore :=
  bootstrap_existing_no_schema_check milvusClient conflictStore conflictStore rfl

theorem bootstrap_state_has {σ : Type} (c : Client σ) (laws : StoreLaws c) (s : σ) :
    (bootstrap c s).state = s ∨
      (c.HasCollection collectionName (bootstrap c s).state).1 = .ok true := by
  have h0 := laws.has_readonly s
  unfold bootstrap
  rcases hh : c.HasCollection collectionName s with ⟨e | b, s1⟩
  · rw [hh] at h0
    exact Or.inl h0
  · rw [hh] at h0
    simp only at h0
    subst h0
    cases b with
    | true => exact Or.inl rfl
    | false =>
      simp only
      rcases hc : c.CreateCollection createOption s1 with ⟨_ | e, s2⟩
      · have h2 := laws.create_ok createOption s1 s2 rfl hc
        simp only
        rcases hl : c.LoadCollection collectionName s2 with ⟨e | t, s3⟩
        · have h3 := laws.load_error s2 e s3 hl
          subst h3
          exact Or.inr h2
        · have h3 := laws.load_ok s2 t s3 h2 hl
          simp only
          rcases ha : c.Await t s3 with ⟨_ | e, s4⟩
          · exact Or.inr (laws.await_ok t s3 s4 h3 ha)
          · have h4 := laws.await_error t s3 e s4 ha
            subst h4
            exact Or.inr h3
      · exact Or.inl (laws.create_error createOption s1 e s2 hc)

theorem bootstrap_of_has {σ : Type} (c : Client σ) (laws : StoreLaws c) (s : σ)
    (h : (c.HasCollection collectionName s).1 = .ok true) :
    bootstrap c s = ⟨.ok, s, [.HasCollection collectionName]⟩ := by
  have h0 := laws.has_readonly s
  rcases hh : c.HasCollection collectionName s with ⟨r, s1⟩
  rw [hh] at h0 h
  simp only at h0 h
  subst h0 h
  simp [bootstrap, hh]

/-- C7: for every store client that obeys `StoreLaws`: when the collection
"products" exists the bootstrap issues the existence check only (no create, no
load) and leaves the store unchanged; when it does not exist the bootstrap
issues a create next, with an int64 non-auto primary key "id", a float vector
"vector" of dimension 1536, a varchar "text" of maximal length 512, dynamic
fields enabled and a COSINE index on "vector", and, these succeeding, a load
and a wait for it, in this order; and the store after two bootstraps in
sequence is the store after one. -/
theorem bootstrap_idempotent {σ : Type} (c : Client σ) (laws : StoreLaws c) (s : σ) :
    ((c.HasCollection collectionName s).1 = .ok true →
      (bootstrap c s).calls = [.HasCollection collectionName] ∧
        (bootstrap c s).state = s ∧ (bootstrap c s).outcome = .ok) ∧
    ((c.HasCollection collectionName s).1 = .ok false →
      ∃ rest, (bootstrap c s).calls =
        .HasCollection collectionName :: .CreateCollection createOption :: rest) ∧
    (∀ s2 t s3 s4, (c.HasCollection collectionName s).1 = .ok false →
      c.CreateCollection createOption s = (none, s2) →
      c.LoadCollection collectionName s2 = (.ok t, s3) →
      c.Await t s3 = (none, s4) →
      (bootstrap c s).calls =
        [.HasCollection collectionName, .CreateCollection createOption,
          .LoadCollection collectionName, .Await t] ∧
        (bootstrap c s).state = s4 ∧ (bootstrap c s).outcome = .ok) ∧
    createOption =
      { name := "products",
        schema :=
          { EnableDynamicField := true,
            Fields :=
              [ { Name := "id", DataType := .FieldTypeInt64, PrimaryKey := true,
                  AutoID := false, Dim := none, MaxLength := none },
                { Name := "vector", DataType := .FieldTypeFloatVector, PrimaryKey := false,
                  AutoID := false, Dim := some 1536, MaxLength := none },
                { Name := "text", DataType := .FieldTypeVarChar, PrimaryKey := false,
                  AutoID := false, Dim := none, MaxLength := some 512 } ] },
        indexOptions :=
          [ { collectionName := "products", fieldName := "vector",
              index := .AutoIndex .COSINE } ] } ∧
    (bootstrap c (bootstrap c s).state).state = (bootstrap c s).state := by
  refine ⟨?_, ?_, ?_, rfl, ?_⟩
  · intro h
    rw [bootstrap_of_has c laws s h]
    exact ⟨rfl, rfl, rfl⟩
  · intro h
    have h0 := laws.has_readonly s
    rcases hh : c.HasCollection collectionName s with ⟨r, s1⟩
    rw [hh] at h0 h
    simp only at h0 h
    subst h0 h
    unfold bootstrap
    simp only [hh]
    rcases hc : c.CreateCollection createOption s1 with ⟨_ | e, s2⟩
    · simp only
      rcases hl : c.LoadCollection collectionName s2 with ⟨e | t, s3⟩
      · exact ⟨_, rfl⟩
      · simp only
        rcases ha : c.Await t s3 with ⟨_ | e, s4⟩ <;> exact ⟨_, rfl⟩
    · exact ⟨_, rfl⟩
  · intro s2 t s3 s4 h hc hl ha
    have h0 := laws.has_readonly s
    rcases hh : c.HasCollection collectionName s with ⟨r, s1⟩
    rw [hh] at h0 h
    simp only at h0 h
    subst h0 h
    simp [bootstrap, hh, hc, hl, ha]
  · rcases bootstrap_state_has c laws s with h | h
    · rw [h]
      exact h
    · rw [bootstrap_of_has c laws _ h]

theorem bootstrap_idempotent_witness :
    (bootstrap milvusClient emptyStore).state =
      ⟨[("products",
          { schema := schema, indexes := indexes, loaded := true, records := [] })]⟩ ∧
    (bootstrap milvusClient (bootstrap milvusClient emptyStore).state).state =
      (bootstrap milvusClient emptyStore).state :=
  ⟨by decide, (bootstrap_idempotent milvusClient milvusClient_laws emptyStore).2.2.2.2⟩

/-! ## Theorems: delete, then index -/

theorem toRecords_ok {κ : Type} (cfg : CollectionConfig κ) (dim : Option Int)
    (docs : List Document)
    (h : ∀ d ∈ docs,
      (∃ v, cfg.Embedder d.text = .ok v ∧ some (v.length : Int) = dim) ∧
        (d.id cfg.IdKey).isSome = true) :
    ∃ batch, toRecords cfg dim docs = .ok batch ∧
      batch.map Record.primaryKey = docs.filterMap (Document.id cfg.IdKey) := by
  induction docs with
  | nil => exact ⟨[], rfl, rfl⟩
  | cons d ds ih =>
    obtain ⟨⟨v, hv, hl⟩, hid⟩ := h d (List.mem_cons_self _ _)
    obtain ⟨batch, hb, hm⟩ := ih (fun x hx => h x (List.mem_cons_of_mem _ hx))
    obtain ⟨k, hk⟩ := Option.isSome_iff_exists.mp hid
    refine ⟨⟨k, v, d.text, d.Metadata⟩ :: batch, ?_, ?_⟩
    · simp [toRecords, toRecord, hv, hl, hk, hb]
    · simp [hm, hk]

theorem write_delete_filter {κ : Type} (mode : WriteMode) (batch recs : List (Record κ))
    (ids : List Int) (hb : batch.map Record.primaryKey = ids) :
    (writeRecords mode batch (recs.filter fun r => r.primaryKey ∉ ids)).filter
        (fun r => r.primaryKey ∉ ids)
      = recs.filter fun r => r.primaryKey ∉ ids := by
  subst hb
  cases mode <;> simp [writeRecords, List.filter_append, List.filter_filter] <;>
    exact fun a ha => ⟨a, ha, rfl⟩

theorem write_delete_count {κ : Type} (mode : WriteMode) (batch recs : List (Record κ))
    (ids : List Int) (k : Int) (hb : batch.map Record.primaryKey = ids)
    (hk : ids.count k = 1) :
    ((writeRecords mode batch (recs.filter fun r => r.primaryKey ∉ ids)).filter
        fun r => r.primaryKey = k).length = 1 := by
  have hmem : k ∈ ids := List.count_pos_iff.mp (by omega)
  have hbatch : (batch.filter fun r => r.primaryKey = k).length = 1 := by
    rw [← List.countP_eq_length_filter, ← hk, ← hb, List.count_eq_countP, List.countP_map]
    congr 1
  have hrest : ∀ l : List (Record κ),
      ((l.filter fun r => r.primaryKey ∉ ids).filter fun r => r.primaryKey = k) = [] := by
    intro l
    rw [List.filter_eq_nil_iff]
    intro r hr hrk
    have h1 := (List.mem_filter.mp hr).2
    simp only [decide_eq_true_eq] at h1 hrk
    exact h1 (hrk ▸ hmem)
  cases mode
  · simp only [writeRecords, List.filter_append, List.length_append, hrest, hbatch,
      List.length_nil, Nat.zero_add]
  · have h2 : ((List.filter (fun r => r.primaryKey ∉ batch.map Record.primaryKey)
          (List.filter (fun r => r.primaryKey ∉ ids) recs)).filter
            fun r => r.primaryKey = k) = [] := by
      rw [List.filter_eq_nil_iff]
      intro r hr hrk
      have h1 := (List.mem_filter.mp (List.mem_filter.mp hr).1).2
      simp only [decide_eq_true_eq] at h1 hrk
      exact h1 (hrk ▸ hmem)
    simp only [writeRecords, List.filter_append, List.length_append, h2, hbatch,
      List.length_nil, Nat.zero_add]

theorem update_update {κ : Type} (st : Store κ) (name : String)
    (f g : Collection κ → Collection κ) :
    (st.update name f).update name g = st.update name (g ∘ f) := by
  obtain ⟨cols⟩ := st
  simp only [Store.update, Store.mk.injEq]
  induction cols with
  | nil => rfl
  | cons nc rest ih =>
    by_cases hn : nc.1 = name <;> simp [updateFirst, hn, ih]

theorem bootstrap_milvus {κ : Type} (st : Store κ) :
    (bootstrap milvusClient st).outcome = .ok ∧
    ((bootstrap milvusClient st).state.find collectionName).isSome = true ∧
    ((st.find collectionName).isSome = true → (bootstrap milvusClient st).state = st) := by
  by_cases h : (st.find collectionName).isSome = true
  · simp [bootstrap, milvusClient, h]
  · have hc : (st.find createOption.name).isSome = false := by
      simpa [createOption, CreateCollectionOption.WithIndexOptions] using h
    have hf : ((Store.mk (st.collections ++
        [(createOption.name,
          ({ schema := createOption.schema, indexes := createOption.indexOptions,
             loaded := false, records := [] } : Collection κ))])).find collectionName).isSome
          = true := by
      simp [Store.find, List.lookup_append, createOption,
        CreateCollectionOption.WithIndexOptions]
    simp only [Bool.not_eq_true] at h
    simp [bootstrap, milvusClient, h, hc, hf, find_update]

theorem bootstrap_milvus_dim {κ : Type} (st : Store κ)
    (hDim : ∀ c, st.find collectionName = some c → c.vectorDim = some 1536) :
    ∃ c0, (bootstrap milvusClient st).state.find collectionName = some c0 ∧
      c0.vectorDim = some 1536 := by
  by_cases h : (st.find collectionName).isSome = true
  · obtain ⟨c, hc⟩ := Option.isSome_iff_exists.mp h
    rw [(bootstrap_milvus st).2.2 h]
    exact ⟨c, hc, hDim c hc⟩
  · have hnone : st.collections.lookup collectionName = none := by
      cases hl : st.collections.lookup collectionName with
      | none => rfl
      | some c =>
        exact absurd (show (st.find collectionName).isSome = true by simp [Store.find, hl]) h
    have hc : (st.find createOption.name).isSome = false := by
      simpa [createOption, CreateCollectionOption.WithIndexOptions] using h
    have hf : (Store.mk (st.collections ++
        [(createOption.name,
          ({ schema := createOption.schema, indexes := createOption.indexOptions,
             loaded := false, records := [] } : Collection κ))])).find collectionName
          = some { schema := schema, indexes := indexes, loaded := false, records := [] } := by
      simp only [Store.find, List.lookup_append, hnone]
      rfl
    simp only [Bool.not_eq_true] at h
    refine ⟨{ schema := schema, indexes := indexes, loaded := true, records := [] }, ?_, rfl⟩
    simp [bootstrap, milvusClient, h, hc, hf, find_update]

theorem deleteStep_milvus {κ : Type} (b : Store κ) (c0 : Collection κ)
    (hc0 : b.find collectionName = some c0) :
    deleteStep milvusClient b =
      ⟨.ok, b.update collectionName (Collection.delete [id1, id2, id3, id4]),
        [.Delete deleteOption]⟩ := by
  simp [deleteStep, milvusClient, deleteOption, hc0]

theorem flow_milvus_state {κ : Type} (mode : WriteMode)
    (embed : String → Except GoError (List κ))
    (search : Store κ → Document → RetrieverOptions → Except GoError RetrieverResponse)
    (generate : promptInput → Except GoError ModelResponse) (query : String) (b : Store κ)
    (c0 : Collection κ) (hc0 : b.find collectionName = some c0)
    (batch : List (Record κ))
    (hb : toRecords (colCfg embed) c0.vectorDim indexDocs = .ok batch) :
    (flow (milvusDeps mode (colCfg embed) search generate) query b).state =
      b.update collectionName (Collection.write mode batch) := by
  have hidx : milvusIndex mode (colCfg embed) indexDocs b =
      (none, b.update collectionName (Collection.write mode batch)) := by
    have hc1 : b.find (colCfg embed).Name = some c0 := hc0
    simp only [milvusIndex, hc1, hb]
    rfl
  simp only [flow, milvusDeps, hidx]
  cases search (b.update collectionName (Collection.write mode batch))
      (DocumentFromText query []) ⟨2⟩ with
  | error e => rfl
  | ok r =>
    simp only
    cases assembleContext r.Documents with
    | none => rfl
    | some context =>
      simp only
      cases generate ⟨query, context⟩ <;> rfl

theorem programRun_state {κ : Type} (mode : WriteMode)
    (embed : String → Except GoError (List κ))
    (search : Store κ → Document → RetrieverOptions → Except GoError RetrieverResponse)
    (generate : promptInput → Except GoError ModelResponse) (st : Store κ)
    (c0 : Collection κ) (hc0 : (bootstrap milvusClient st).state.find collectionName = some c0)
    (batch : List (Record κ))
    (hb : toRecords (colCfg embed) c0.vectorDim indexDocs = .ok batch) :
    (programRun milvusClient (milvusDeps mode (colCfg embed) search generate) st).state =
      (bootstrap milvusClient st).state.update collectionName
        (Collection.write mode batch ∘ Collection.delete [id1, id2, id3, id4]) := by
  obtain ⟨hok, _, _⟩ := bootstrap_milvus st
  have hdel := deleteStep_milvus _ c0 hc0
  have hc1 : ((bootstrap milvusClient st).state.update collectionName
      (Collection.delete [id1, id2, id3, id4])).find collectionName
        = some (Collection.delete [id1, id2, id3, id4] c0) := by
    rw [find_update, hc0]
    rfl
  have hflow := flow_milvus_state mode embed search generate "I want to buy an iphone" _ _
    hc1 batch hb
  rw [update_update] at hflow
  rw [← hflow]
  simp only [programRun, hok, hdel]
  split <;> rfl

theorem indexDocs_batch {κ : Type} (embed : String → Except GoError (List κ))
    (hEmbed : ∀ d ∈ indexDocs, ∃ v, embed d.text = .ok v ∧ v.length = 1536) :
    ∃ batch, toRecords (colCfg embed) (some 1536) indexDocs = .ok batch ∧
      batch.map Record.primaryKey = [id1, id2, id3, id4] := by
  have h := toRecords_ok (colCfg embed) (some 1536) indexDocs (by
    intro d hd
    obtain ⟨v, hv, hl⟩ := hEmbed d hd
    refine ⟨⟨v, hv, by simp [hl]⟩, ?_⟩
    simp only [indexDocs, List.mem_cons, List.mem_singleton, List.not_mem_nil, or_false] at hd
    rcases hd with rfl | rfl | rfl | rfl <;> rfl)
  obtain ⟨batch, hb, hm⟩ := h
  exact ⟨batch, hb, hm.trans rfl⟩

theorem reindex_idem {κ : Type} (mode : WriteMode) (batch : List (Record κ)) (ids : List Int)
    (hb : batch.map Record.primaryKey = ids) (c : Collection κ) :
    (Collection.write mode batch ∘ Collection.delete ids)
        ((Collection.write mode batch ∘ Collection.delete ids) c) =
      (Collection.write mode batch ∘ Collection.delete ids) c := by
  simp only [Function.comp, Collection.write, Collection.delete,
    write_delete_filter mode batch c.records ids hb]

theorem toRecords_mismatch {κ : Type} (cfg : CollectionConfig κ) (dim : Option Int)
    (d : Document) (ds : List Document) (v : List κ) (hv : cfg.Embedder d.text = .ok v)
    (hl : some (v.length : Int) ≠ dim) :
    toRecords cfg dim (d :: ds) = .error ⟨"DimensionMismatch"⟩ := by
  simp [toRecords, toRecord, hv, hl]

theorem programRun_index_error {κ : Type} (mode : WriteMode)
    (embed : String → Except GoError (List κ))
    (search : Store κ → Document → RetrieverOptions → Except GoError RetrieverResponse)
    (generate : promptInput → Except GoError ModelResponse) (st : Store κ)
    (c0 : Collection κ) (hc0 : (bootstrap milvusClient st).state.find collectionName = some c0)
    (e : GoError) (herr : toRecords (colCfg embed) c0.vectorDim indexDocs = .error e) :
    (programRun milvusClient (milvusDeps mode (colCfg embed) search generate) st).result =
        .fatal ("failed running flow: " ++ ("failed indexing documents: " ++ e.msg)) ∧
      (programRun milvusClient (milvusDeps mode (colCfg embed) search generate) st).state =
        (bootstrap milvusClient st).state.update collectionName
          (Collection.delete [id1, id2, id3, id4]) := by
  obtain ⟨hok, _, _⟩ := bootstrap_milvus st
  have hdel := deleteStep_milvus _ c0 hc0
  have hc1 : ((bootstrap milvusClient st).state.update collectionName
      (Collection.delete [id1, id2, id3, id4])).find (colCfg embed).Name
        = some (Collection.delete [id1, id2, id3, id4] c0) := by
    show Store.find _ collectionName = _
    rw [find_update, hc0]
    rfl
  have hdim : (Collection.delete [id1, id2, id3, id4] c0).vectorDim = c0.vectorDim := rfl
  have hidx : milvusIndex mode (colCfg embed) indexDocs
      ((bootstrap milvusClient st).state.update collectionName
        (Collection.delete [id1, id2, id3, id4])) =
      (some e, (bootstrap milvusClient st).state.update collectionName
        (Collection.delete [id1, id2, id3, id4])) := by
    simp only [milvusIndex, hc1, hdim, herr]
  constructor
  · simp [programRun, hok, hdel, flow, milvusDeps, hidx, Errorf]
  · simp [programRun, hok, hdel, flow, milvusDeps, hidx]

/-- C8, as stated, fails: start from a store whose collection "products" has
vector dimension 768 and holds one record for each of the ids 1 to 4, with an
embedder that returns vectors of dimension 1536.  The program deletes the four
ids, the indexing of the flow fails with `DimensionMismatch`, and the
collection is left with no record for any of the four ids. -/
theorem reindex_fails_on_other_dimension :
    (staleStore.find collectionName).bind Collection.vectorDim = some 768 ∧
    ([id1, id2, id3, id4].map fun k => staleStore.countId collectionName k) =
      [some 1, some 1, some 1, some 1] ∧
    (programRun milvusClient
        (milvusDeps .upsert (colCfg zeroEmbed) (fun _ _ _ => .ok ⟨[]⟩) (fun _ => .ok ⟨"ok"⟩))
        staleStore).result =
      .fatal "failed running flow: failed indexing documents: DimensionMismatch" ∧
    ([id1, id2, id3, id4].map fun k =>
      (programRun milvusClient
        (milvusDeps .upsert (colCfg zeroEmbed) (fun _ _ _ => .ok ⟨[]⟩) (fun _ => .ok ⟨"ok"⟩))
        staleStore).state.countId collectionName k) =
      [some 0, some 0, some 0, some 0] := by
  obtain ⟨c0, hc0⟩ : ∃ c0, staleStore.find collectionName = some c0 := ⟨_, rfl⟩
  have hb : (bootstrap milvusClient staleStore).state = staleStore := rfl
  have hdim : c0.vectorDim = some 768 := by
    cases hc0
    rfl
  have herr : toRecords (colCfg zeroEmbed) c0.vectorDim indexDocs
      = .error ⟨"DimensionMismatch"⟩ := by
    rw [hdim]
    exact toRecords_mismatch (colCfg zeroEmbed) (some 768) _ _ (List.replicate 1536 0) rfl
      (by rw [List.length_replicate]; decide)
  obtain ⟨hres, hstate⟩ := programRun_index_error .upsert zeroEmbed
    (fun _ _ _ => .ok ⟨[]⟩) (fun _ => .ok ⟨"ok"⟩) staleStore c0 (hb ▸ hc0) _ herr
  refine ⟨by decide, by decide, ?_, ?_⟩
  · rw [hres]
    decide
  · rw [hstate, hb]
    decide

/-- C8, amended: over the reference store, for either write mode of the
indexer, every embedder that returns a vector of dimension 1536 for the four
texts, and every starting store in which the collection "products", when there
is one, has vector dimension 1536: after a program run (bootstrap, delete of
the ids 1 to 4, then the flow, which indexes the four documents) the
collection "products" holds exactly one record for each of the ids 1, 2, 3 and
4, and a second program run leaves the store exactly as the first one left
it. -/
theorem reindex_one_record_per_id {κ : Type} (mode : WriteMode)
    (embed : String → Except GoError (List κ))
    (search : Store κ → Document → RetrieverOptions → Except GoError RetrieverResponse)
    (generate : promptInput → Except GoError ModelResponse) (st : Store κ)
    (hEmbed : ∀ d ∈ indexDocs, ∃ v, embed d.text = .ok v ∧ v.length = 1536)
    (hDim : ∀ c, st.find collectionName = some c → c.vectorDim = some 1536) :
    (∀ k ∈ [id1, id2, id3, id4],
      (programRun milvusClient (milvusDeps mode (colCfg embed) search generate) st).state.countId
        collectionName k = some 1) ∧
    (programRun milvusClient (milvusDeps mode (colCfg embed) search generate)
        (programRun milvusClient (milvusDeps mode (colCfg embed) search generate) st).state).state
      = (programRun milvusClient (milvusDeps mode (colCfg embed) search generate) st).state := by
  obtain ⟨batch, hb, hm⟩ := indexDocs_batch embed hEmbed
  obtain ⟨c0, hc0, hd0⟩ := bootstrap_milvus_dim st hDim
  have hb0 : toRecords (colCfg embed) c0.vectorDim indexDocs = .ok batch := by
    rw [hd0]
    exact hb
  have hrun := programRun_state mode embed search generate st c0 hc0 batch hb0
  have hfind : ((bootstrap milvusClient st).state.update collectionName
      (Collection.write mode batch ∘ Collection.delete [id1, id2, id3, id4])).find
        collectionName =
      some ((Collection.write mode batch ∘ Collection.delete [id1, id2, id3, id4]) c0) := by
    rw [find_update, hc0]
    rfl
  constructor
  · intro k hk
    have hcount : [id1, id2, id3, id4].count k = 1 := by
      simp only [List.mem_cons, List.mem_singleton, List.not_mem_nil, or_false] at hk
      rcases hk with rfl | rfl | rfl | rfl <;> decide
    rw [hrun, Store.countId, hfind]
    simp only [Option.map_some', Function.comp, Collection.write, Collection.delete]
    rw [write_delete_count mode batch c0.records _ k hm hcount]
  · have hsame : (bootstrap milvusClient ((bootstrap milvusClient st).state.update
        collectionName
        (Collection.write mode batch ∘ Collection.delete [id1, id2, id3, id4]))).state =
        (bootstrap milvusClient st).state.update collectionName
          (Collection.write mode batch ∘ Collection.delete [id1, id2, id3, id4]) :=
      (bootstrap_milvus _).2.2 (by rw [hfind]; rfl)
    rw [hrun]
    rw [programRun_state mode embed search generate _
      ((Collection.write mode batch ∘ Collection.delete [id1, id2, id3, id4]) c0)
      (by rw [hsame]; exact hfind) batch hb0]
    rw [hsame, update_update]
    congr 1
    funext c
    exact reindex_idem mode batch _ hm c

theorem reindex_one_record_per_id_witness :
    (∀ d ∈ indexDocs, ∃ v, zeroEmbed d.text = .ok v ∧ v.length = 1536) ∧
    (∀ c, seededStore.find collectionName = some c → c.vectorDim = some 1536) ∧
    ([id1, id2, id3, id4, 7].map fun k => seededStore.countId collectionName k) =
      [some 2, some 1, some 1, some 0, some 1] ∧
    (∀ k ∈ [id1, id2, id3, id4],
      (programRun milvusClient
        (milvusDeps .insert (colCfg zeroEmbed) (fun _ _ _ => .ok ⟨[]⟩) (fun _ => .ok ⟨"ok"⟩))
        seededStore).state.countId collectionName k = some 1) ∧
    (programRun milvusClient
        (milvusDeps .insert (colCfg zeroEmbed) (fun _ _ _ => .ok ⟨[]⟩) (fun _ => .ok ⟨"ok"⟩))
        (programRun milvusClient
          (milvusDeps .insert (colCfg zeroEmbed) (fun _ _ _ => .ok ⟨[]⟩) (fun _ => .ok ⟨"ok"⟩))
          seededStore).state).state
      = (programRun milvusClient
          (milvusDeps .insert (colCfg zeroEmbed) (fun _ _ _ => .ok ⟨[]⟩) (fun _ => .ok ⟨"ok"⟩))
          seededStore).state :=
  ⟨fun _ _ => ⟨List.replicate 1536 0, rfl, List.length_replicate _ _⟩,
    fun _ hc => Option.some.inj hc ▸ rfl,
    by decide,
    reindex_one_record_per_id .insert zeroEmbed (fun _ _ _ => .ok ⟨[]⟩) (fun _ => .ok ⟨"ok"⟩)
      seededStore (fun _ _ => ⟨List.replicate 1536 0, rfl, List.length_replicate _ _⟩)
      (fun _ hc => Option.some.inj hc ▸ rfl)⟩

end GenkitMilvus
